import Mathlib

/-!
Verification of the `sgm-lunch` menu-acquisition pipeline
(`scripts/update_menu.py`) against its natural-language specification.

The Python source is shallowly embedded below.  Pure helpers become Lean
functions; the effectful `main` becomes a function from an explicit
environment and external-world valuation to an exit code plus a trace of
observable effects (page load, image download, vision-service call,
persistence writes).  Machine integers are `Nat`/`Int` (Python ints are
unbounded, so no wrap-around modelling is needed); fallible code returns
`Option`/`Except`.
-/

namespace SgmLunch

/-! ## Python string helpers -/

/-- The whitespace set recognised by Python's `str.strip()` and the regex
class `\s`, restricted to ASCII (the URLs and model responses handled by
the program are ASCII; the additional Unicode space characters Python
also strips are not modelled). -/
def pyIsSpace (c : Char) : Bool :=
  c = ' ' || c = '\t' || c = '\n' || c = '\r' || c = '\x0b' || c = '\x0c'

/-- Python `str.strip()`: remove leading and trailing whitespace. -/
def pyStrip (s : String) : String :=
  ⟨((s.data.dropWhile pyIsSpace).reverse.dropWhile pyIsSpace).reverse⟩

/-- Python's `needle in haystack` substring test. -/
def containsSub (hay needle : String) : Bool :=
  (List.range (hay.data.length + 1)).any
    (fun i => needle.data.isPrefixOf (hay.data.drop i))

/-- ASCII lower-casing of one character. -/
def charLower (c : Char) : Char :=
  if 'A' ≤ c && c ≤ 'Z' then Char.ofNat (c.toNat + 32) else c

/-- Python `str.lower()` for the ASCII range (`str.lower` is
Unicode-aware, but every string it is applied to in the program is a URL,
hence ASCII). -/
def pyLower (s : String) : String := ⟨s.data.map charLower⟩

/-- Python string slicing `s[:n]` (by characters). -/
def pyTake (s : String) (n : Nat) : String := ⟨s.data.take n⟩

/-- One splitting step of Python's `str.split(sep)` with a non-empty
separator: scan left to right, cutting at each separator occurrence.
The fuel argument only bounds the scan length (`length + 1` suffices
since at least one character is consumed per step). -/
def pySplitAux (sep : List Char) : Nat → List Char → List Char → List (List Char)
  | 0, cs, acc => [acc.reverse ++ cs]
  | fuel + 1, cs, acc =>
    match cs with
    | [] => [acc.reverse]
    | c :: rest =>
      if sep.isPrefixOf (c :: rest) then
        acc.reverse :: pySplitAux sep fuel ((c :: rest).drop sep.length) []
      else
        pySplitAux sep fuel rest (c :: acc)

/-- Python `s.split(sep)` for a non-empty separator (`"".split("-")`
gives `[""]`; an empty separator, which Python rejects, returns the
whole string). -/
def pySplit (s sep : String) : List String :=
  if sep.data.isEmpty then [s]
  else (pySplitAux sep.data (s.data.length + 1) s.data []).map (fun l => ⟨l⟩)

/-- Decimal digit character, as produced by Python's integer formatting. -/
def digitChar : Nat → Char
  | 0 => '0' | 1 => '1' | 2 => '2' | 3 => '3' | 4 => '4'
  | 5 => '5' | 6 => '6' | 7 => '7' | 8 => '8' | 9 => '9'
  | _ => '*'

/-- Decimal digits, most significant first; the fuel argument only
bounds the recursion depth (`n + 1` always suffices since a number has
at most `n + 1` digits). -/
def natCharsAux : Nat → Nat → List Char
  | 0, _ => []
  | fuel + 1, n =>
    if n < 10 then [digitChar n]
    else natCharsAux fuel (n / 10) ++ [digitChar (n % 10)]

/-- Decimal digit list of a natural number (no leading zeros; `0 ↦ "0"`),
matching Python's `str(int)` for non-negative values. -/
def natChars (n : Nat) : List Char := natCharsAux (n + 1) n

/-- Python `str(n)` for a natural number. -/
def natStr (n : Nat) : String := ⟨natChars n⟩

/-- Python `str(i)` for an integer. -/
def intStr (i : Int) : String :=
  if i < 0 then "-" ++ natStr i.natAbs else natStr i.natAbs

/-- Python `f"{i:02d}"`: pad with a leading zero to width 2 (a negative
sign counts towards the width, as in Python). -/
def fmt02 (i : Int) : String :=
  let s := intStr i
  if s.length < 2 then "0" ++ s else s

/-- Lexicographic (code-point) comparison of character lists; this is
Python's `<=` on strings. -/
def charListLe : List Char → List Char → Bool
  | [], _ => true
  | _ :: _, [] => false
  | a :: as, b :: bs =>
    if a < b then true else if b < a then false else charListLe as bs

/-- Value of a list of ASCII digit characters, most significant first. -/
def digitsToNat (ds : List Char) : Nat :=
  ds.foldl (fun acc c => acc * 10 + (c.toNat - 48)) 0

/-- Python `int(s)` on a clean numeric literal: optional sign followed by
at least one ASCII digit.  (Python's `int` additionally strips whitespace
and allows `_` separators; no input in the program exercises those.) -/
def pyInt? (s : String) : Option Int :=
  match s.data with
  | [] => none
  | '-' :: ds =>
    if ds ≠ [] && ds.all Char.isDigit then some (-(Int.ofNat (digitsToNat ds))) else none
  | '+' :: ds =>
    if ds ≠ [] && ds.all Char.isDigit then some (Int.ofNat (digitsToNat ds)) else none
  | ds =>
    if ds.all Char.isDigit then some (Int.ofNat (digitsToNat ds)) else none

/-! ## JSON values and `json.loads`

`parse_image_with_gemini` recovers a JSON value from the model response
with `json.loads`.  The embedding below follows CPython's `json` decoder
with default options: JSON whitespace is ` \t\n\r`; strings are strict
(raw control characters below U+0020 are rejected, the escapes
`\" \\ \/ \b \f \n \r \t \uXXXX` are decoded, and surrogate pairs are
combined — a lone surrogate, which Python would keep, is approximated by
`Char.ofNat`'s fallback since Lean's `Char` cannot hold it); the
constants `NaN`, `Infinity` and `-Infinity` are accepted.  Numbers keep
their matched lexeme (no claim depends on float arithmetic). -/

inductive Json where
  | null
  | bool (b : Bool)
  | num (lex : String)
  | str (s : String)
  | arr (elems : List Json)
  | obj (members : List (String × Json))
deriving Repr

/-- JSON whitespace (`json.decoder.WHITESPACE`). -/
def jsonWs (c : Char) : Bool := c = ' ' || c = '\t' || c = '\n' || c = '\r'

/-- Skip JSON whitespace. -/
def jSkipWs (cs : List Char) : List Char := cs.dropWhile jsonWs

/-- Hexadecimal digit value. -/
def hexVal (c : Char) : Option Nat :=
  if '0' ≤ c && c ≤ '9' then some (c.toNat - 48)
  else if 'a' ≤ c && c ≤ 'f' then some (c.toNat - 87)
  else if 'A' ≤ c && c ≤ 'F' then some (c.toNat - 55)
  else none

/-- Four hex digits, as in a `\uXXXX` escape. -/
def jParseHex4 (cs : List Char) : Option (Nat × List Char) :=
  match cs with
  | a :: b :: c :: d :: rest =>
    match hexVal a, hexVal b, hexVal c, hexVal d with
    | some x, some y, some z, some w => some (((x * 16 + y) * 16 + z) * 16 + w, rest)
    | _, _, _, _ => none
  | _ => none

/-- Total `Char` construction; invalid code points (lone surrogates) fall
back to `Char.ofNat`'s default. -/
def charFromNat (n : Nat) : Char := Char.ofNat n

/-- Decode a JSON string body (after the opening quote), returning the
decoded content and the remaining input after the closing quote.
Mirrors CPython's `py_scanstring` in strict mode. -/
def jParseStrBody : Nat → List Char → Option (String × List Char)
  | 0, _ => none
  | _, [] => none
  | fuel + 1, c :: rest =>
    if c = '"' then some ("", rest)
    else if c = '\\' then
      match rest with
      | [] => none
      | 'u' :: rest2 =>
        match jParseHex4 rest2 with
        | none => none
        | some (n, rest3) =>
          if 0xD800 ≤ n && n ≤ 0xDBFF then
            match rest3 with
            | '\\' :: 'u' :: rest4 =>
              match jParseHex4 rest4 with
              | some (n2, rest5) =>
                if 0xDC00 ≤ n2 && n2 ≤ 0xDFFF then
                  (jParseStrBody fuel rest5).map (fun p =>
                    (⟨charFromNat (0x10000 + (n - 0xD800) * 0x400 + (n2 - 0xDC00)) :: p.1.data⟩, p.2))
                else
                  (jParseStrBody fuel rest3).map (fun p => (⟨charFromNat n :: p.1.data⟩, p.2))
              | none =>
                (jParseStrBody fuel rest3).map (fun p => (⟨charFromNat n :: p.1.data⟩, p.2))
            | _ => (jParseStrBody fuel rest3).map (fun p => (⟨charFromNat n :: p.1.data⟩, p.2))
          else
            (jParseStrBody fuel rest3).map (fun p => (⟨charFromNat n :: p.1.data⟩, p.2))
      | e :: rest2 =>
        let esc : Option Char :=
          if e = '"' then some '"'
          else if e = '\\' then some '\\'
          else if e = '/' then some '/'
          else if e = 'b' then some '\x08'
          else if e = 'f' then some '\x0c'
          else if e = 'n' then some '\n'
          else if e = 'r' then some '\r'
          else if e = 't' then some '\t'
          else none
        match esc with
        | none => none
        | some ec => (jParseStrBody fuel rest2).map (fun p => (⟨ec :: p.1.data⟩, p.2))
    else if c.toNat < 0x20 then none
    else (jParseStrBody fuel rest).map (fun p => (⟨c :: p.1.data⟩, p.2))

/-- Lex a JSON number per `json.scanner.NUMBER_RE`:
`(-?(0|[1-9]\d*))(\.\d+)?([eE][+-]?\d+)?`.  Returns the matched lexeme
and the remaining input; fails if no number starts here. -/
def jParseNum (cs : List Char) : Option (Json × List Char) :=
  let signed : Bool × List Char :=
    match cs with
    | '-' :: rest => (true, rest)
    | _ => (false, cs)
  match signed.2 with
  | [] => none
  | c :: rest =>
    if c = '0' || c.isDigit then
      let intPart : List Char :=
        if c = '0' then ['0'] else c :: rest.takeWhile Char.isDigit
      let rest1 : List Char :=
        if c = '0' then rest else rest.drop (rest.takeWhile Char.isDigit).length
      let fracP : List Char × List Char :=
        match rest1 with
        | '.' :: r =>
          let ds := r.takeWhile Char.isDigit
          if ds.isEmpty then ([], rest1) else ('.' :: ds, r.drop ds.length)
        | _ => ([], rest1)
      let expP : List Char × List Char :=
        match fracP.2 with
        | e :: r =>
          if e = 'e' || e = 'E' then
            let sr : List Char × List Char :=
              match r with
              | '+' :: r2 => (['+'], r2)
              | '-' :: r2 => (['-'], r2)
              | _ => ([], r)
            let ds := sr.2.takeWhile Char.isDigit
            if ds.isEmpty then ([], fracP.2)
            else (e :: (sr.1 ++ ds), sr.2.drop ds.length)
          else ([], fracP.2)
        | _ => ([], fracP.2)
      let lex : List Char :=
        (if signed.1 then ['-'] else []) ++ intPart ++ fracP.1 ++ expP.1
      some (Json.num ⟨lex⟩, expP.2)
    else none

mutual

/-- Parse one JSON value at the current (whitespace-free) position;
mirrors CPython's `scan_once`. -/
def jParseVal : Nat → List Char → Option (Json × List Char)
  | 0, _ => none
  | fuel + 1, cs =>
    match cs with
    | '\x7b' :: rest => jParseObjStart fuel (jSkipWs rest)
    | '[' :: rest => jParseArrStart fuel (jSkipWs rest)
    | '"' :: rest => (jParseStrBody (fuel + 1) rest).map (fun p => (Json.str p.1, p.2))
    | 't' :: rest =>
      if "rue".data.isPrefixOf rest then some (Json.bool true, rest.drop 3) else none
    | 'f' :: rest =>
      if "alse".data.isPrefixOf rest then some (Json.bool false, rest.drop 4) else none
    | 'n' :: rest =>
      if "ull".data.isPrefixOf rest then some (Json.null, rest.drop 3) else none
    | 'N' :: rest =>
      if "aN".data.isPrefixOf rest then some (Json.num "NaN", rest.drop 2) else none
    | 'I' :: rest =>
      if "nfinity".data.isPrefixOf rest then some (Json.num "Infinity", rest.drop 7) else none
    | '-' :: 'I' :: rest =>
      if "nfinity".data.isPrefixOf rest then some (Json.num "-Infinity", rest.drop 7) else none
    | _ => jParseNum cs

/-- Parse an object after the opening brace (whitespace already skipped). -/
def jParseObjStart : Nat → List Char → Option (Json × List Char)
  | 0, _ => none
  | fuel + 1, cs =>
    match cs with
    | '\x7d' :: rest => some (Json.obj [], rest)
    | _ => jParseMembers fuel cs []

/-- Parse `"key": value (, "key": value)* }`. -/
def jParseMembers : Nat → List Char → List (String × Json) →
    Option (Json × List Char)
  | 0, _, _ => none
  | fuel + 1, cs, acc =>
    match cs with
    | '"' :: rest =>
      match jParseStrBody (fuel + 1) rest with
      | none => none
      | some (k, rest1) =>
        match jSkipWs rest1 with
        | ':' :: rest2 =>
          match jParseVal fuel (jSkipWs rest2) with
          | none => none
          | some (v, rest3) =>
            match jSkipWs rest3 with
            | ',' :: rest4 => jParseMembers fuel (jSkipWs rest4) (acc ++ [(k, v)])
            | '\x7d' :: rest4 => some (Json.obj (acc ++ [(k, v)]), rest4)
            | _ => none
        | _ => none
    | _ => none

/-- Parse an array after the opening bracket (whitespace already skipped). -/
def jParseArrStart : Nat → List Char → Option (Json × List Char)
  | 0, _ => none
  | fuel + 1, cs =>
    match cs with
    | ']' :: rest => some (Json.arr [], rest)
    | _ => jParseElems fuel cs []

/-- Parse `value (, value)* ]`. -/
def jParseElems : Nat → List Char → List Json → Option (Json × List Char)
  | 0, _, _ => none
  | fuel + 1, cs, acc =>
    match jParseVal fuel cs with
    | none => none
    | some (v, rest) =>
      match jSkipWs rest with
      | ',' :: rest2 => jParseElems fuel (jSkipWs rest2) (acc ++ [v])
      | ']' :: rest2 => some (Json.arr (acc ++ [v]), rest2)
      | _ => none

end

/-- Python `json.loads`: parse one JSON document, requiring only
whitespace after it.  The fuel bound is generous: the parser consumes at
least one character between two fuel decrements. -/
def jsonLoads (s : String) : Option Json :=
  match jParseVal (3 * s.data.length + 8) (jSkipWs s.data) with
  | some (v, rest) => if (jSkipWs rest).isEmpty then some v else none
  | none => none

/-! ## Python values

`validate_menu_map` receives a `dict` whose values may be of any type
(the model response is untrusted).  `PyVal` covers the value universe a
decoded JSON document can produce: `None`, `str`, `int`, `bool`, `float`
(kept as its numeric literal — no claim depends on float arithmetic or
formatting), `list` and `dict`. -/

inductive PyVal where
  | none
  | str (s : String)
  | int (n : Int)
  | bool (b : Bool)
  | float (lex : String)
  | list (xs : List PyVal)
  | dict (kvs : List (String × PyVal))
deriving Repr

/-- Is a float literal's mantissa all zeros (so its value is `0.0`)?  The
exponent part cannot make a nonzero mantissa zero or vice versa. -/
def floatLexIsZero (lex : String) : Bool :=
  let mantissa := lex.data.takeWhile (fun c => c ≠ 'e' && c ≠ 'E')
  mantissa.all (fun c => !c.isDigit || c = '0')

/-- Python truthiness (`bool(v)`) on the modelled value universe. -/
def truthy : PyVal → Bool
  | PyVal.none => false
  | PyVal.str s => !s.isEmpty
  | PyVal.int n => n ≠ 0
  | PyVal.bool b => b
  | PyVal.float lex => !floatLexIsZero lex
  | PyVal.list xs => !xs.isEmpty
  | PyVal.dict kvs => !kvs.isEmpty

mutual

/-- Python `repr(v)`.  String quoting/escaping is simplified to wrapping
in single quotes (Python escapes quotes and control characters inside;
no claim depends on that), and a float's repr is its stored literal. -/
def pyRepr : PyVal → String
  | PyVal.none => "None"
  | PyVal.str s => "'" ++ s ++ "'"
  | PyVal.int n => intStr n
  | PyVal.bool b => if b then "True" else "False"
  | PyVal.float lex => lex
  | PyVal.list xs => "[" ++ String.intercalate ", " (pyReprList xs) ++ "]"
  | PyVal.dict kvs => "\x7b" ++ String.intercalate ", " (pyReprDict kvs) ++ "\x7d"

/-- `repr` of each element of a list. -/
def pyReprList : List PyVal → List String
  | [] => []
  | v :: vs => pyRepr v :: pyReprList vs

/-- `repr` of each `key: value` entry of a dict. -/
def pyReprDict : List (String × PyVal) → List String
  | [] => []
  | (k, v) :: kvs => ("'" ++ k ++ "': " ++ pyRepr v) :: pyReprDict kvs

end

/-- Python `str(v)`: like `repr` except strings pass through unquoted. -/
def pyStr : PyVal → String
  | PyVal.str s => s
  | v => pyRepr v

/-! ## Validator (`validate_menu_map`, lines 273-304) -/

/-- Days in a month, with the Gregorian leap rule (this is what
`datetime`'s constructor validates the day against). -/
def daysInMonth (y m : Nat) : Nat :=
  if m = 2 then (if y % 4 = 0 && (y % 100 ≠ 0 || y % 400 = 0) then 29 else 28)
  else if m = 4 || m = 6 || m = 9 || m = 11 then 30 else 31

/-- `datetime.strptime(s, "%Y-%m-%d")`, yielding `(year, month, day)`.
CPython compiles the format to the regex
`(?P<Y>\d\d\d\d)-(?P<m>1[0-2]|0[1-9]|[1-9])-(?P<d>3[01]|[12]\d|0[1-9]|[1-9])`,
requires the whole string to be consumed, and then builds a `datetime`
(which enforces `1 <= year <= 9999` and a valid day for the month).
Since the separators are literal dashes and each numeric field is
dash-free, splitting on `-` is equivalent. -/
def strptime_Ymd (s : String) : Option (Nat × Nat × Nat) :=
  match pySplit s "-" with
  | [ys, ms, ds] =>
    if ys.data.length = 4 && ys.data.all Char.isDigit
        && 1 ≤ ms.data.length && ms.data.length ≤ 2 && ms.data.all Char.isDigit
        && 1 ≤ ds.data.length && ds.data.length ≤ 2 && ds.data.all Char.isDigit then
      let y := digitsToNat ys.data
      let m := digitsToNat ms.data
      let d := digitsToNat ds.data
      if 1 ≤ y ∧ 1 ≤ m ∧ m ≤ 12 ∧ 1 ≤ d ∧ d ≤ daysInMonth y m then
        some (y, m, d)
      else none
    else none
  | _ => none

/-- `year, month = map(int, month_key.split("-"))` (line 275); a wrong
number of parts or a non-integer part raises `ValueError`. -/
def parse_month_key (month_key : String) : Option (Int × Int) :=
  match pySplit month_key "-" with
  | [ys, ms] =>
    match pyInt? ys, pyInt? ms with
    | some y, some m => some (y, m)
    | _, _ => Option.none
  | _ => Option.none

/-- Does a key survive the validator's filter: it parses as `%Y-%m-%d`
and its year/month equal the target (lines 279-287)? -/
def keyOk (k : String) (year month : Int) : Bool :=
  match strptime_Ymd k with
  | some (y, m, _) => (y : Int) = year && (m : Int) = month
  | Option.none => false

/-- Value coercion of `validate_menu_map` (lines 289-296): `None` passes
through; a string is stripped and becomes `None` if empty; any other
value is replaced by `str(lunch) if lunch else None` — note the
condition is the *truthiness of the value*, not of its string form. -/
def coerce_value (lunch : PyVal) : Option String :=
  match lunch with
  | PyVal.none => Option.none
  | PyVal.str s => if pyStrip s = "" then Option.none else some (pyStrip s)
  | v => if truthy v then some (pyStr v) else Option.none

/-- Key order used by `sorted(validated.items())`: Python compares the
`(key, value)` tuples, and since a dict's keys are pairwise distinct the
comparison is decided by the keys (code-point lexicographic). -/
def kle (a b : String × Option String) : Bool := charListLe a.1.data b.1.data

/-- Stable insertion into a sorted list (model of Python's stable sort). -/
def insSorted (a : String × Option String) :
    List (String × Option String) → List (String × Option String)
  | [] => [a]
  | b :: l => if kle a b then a :: b :: l else b :: insSorted a l

/-- `sorted(validated.items())`: stable sort by key. -/
def sortPairs : List (String × Option String) → List (String × Option String)
  | [] => []
  | a :: l => insSorted a (sortPairs l)

/-- `validate_menu_map(menu_map, month_key)` (lines 273-304).  The input
dict is modelled as an association list with pairwise-distinct keys; the
output maps each surviving date key to its coerced value, sorted
ascending.  The two `ValueError`s of the source are kept apart by their
messages. -/
def validate_menu_map (menu_map : List (String × PyVal)) (month_key : String) :
    Except String (List (String × Option String)) :=
  match parse_month_key month_key with
  | Option.none => Except.error "invalid month_key"
  | some (year, month) =>
    let validated := menu_map.filterMap (fun p =>
      if keyOk p.1 year month then some (p.1, coerce_value p.2) else Option.none)
    let sortedV := sortPairs validated
    if sortedV.isEmpty then Except.error "No valid menu entries after validation"
    else Except.ok sortedV

/-! ## Source Locator (`extract_menu_meta_from_images`, lines 58-108) -/

/-- A `datetime` as the locator consumes it (`now.year`, `now.month`;
`datetime` guarantees `1 <= year <= 9999`, `1 <= month <= 12`). -/
structure PyDateTime where
  year : Nat
  month : Nat
  day : Nat
deriving Repr, DecidableEq

/-- The `MONTH_MAP` constant (line 35). -/
def MONTH_MAP : List (String × Int) :=
  [("january", 1), ("february", 2), ("march", 3), ("april", 4),
   ("may", 5), ("june", 6), ("july", 7), ("august", 8),
   ("september", 9), ("october", 10), ("november", 11), ("december", 12)]

/-- Python `str.capitalize()` (the arguments are lowercase ASCII month
names, for which it upper-cases the first character). -/
def pyCapitalize (s : String) : String :=
  match s.data with
  | [] => ""
  | c :: cs => ⟨c.toUpper :: cs⟩

/-- The `MONTH_NAMES` dict (line 41): month number to capitalised name. -/
def MONTH_NAMES : List (Int × String) := MONTH_MAP.map (fun p => (p.2, pyCapitalize p.1))

/-- Dict subscript `MONTH_NAMES[m]`: `none` models a `KeyError`. -/
def monthName? (m : Int) : Option String :=
  (MONTH_NAMES.find? (fun p => p.1 == m)).map Prod.snd

/-- Match `re.search(r"/pictures/(\d{4})/(\d{1,2})/", src)` anchored at
the current position: the literal `/pictures/`, four digits, `/`, then a
greedy one-or-two-digit month followed by `/` (two digits are preferred;
the regex backtracks to one digit only when the character after the
first digit is `/`). -/
def dateMatchAt (cs : List Char) : Option (Nat × Nat) :=
  if "/pictures/".data.isPrefixOf cs then
    match cs.drop 10 with
    | d1 :: d2 :: d3 :: d4 :: '/' :: rest =>
      if d1.isDigit && d2.isDigit && d3.isDigit && d4.isDigit then
        let y := digitsToNat [d1, d2, d3, d4]
        match rest with
        | m1 :: m2 :: rest3 =>
          if m1.isDigit then
            if m2.isDigit then
              match rest3 with
              | '/' :: _ => some (y, digitsToNat [m1, m2])
              | _ => Option.none
            else if m2 = '/' then some (y, digitsToNat [m1])
            else Option.none
          else Option.none
        | _ => Option.none
      else Option.none
    | _ => Option.none
  else Option.none

/-- `re.search` for the date pattern: leftmost match in the string. -/
def dateSearch (s : String) : Option (Nat × Nat) :=
  (List.range (s.data.length + 1)).findSome? (fun i => dateMatchAt (s.data.drop i))

/-- The per-candidate filter chain of the locator loop (lines 63-73):
approved domain, no logo/seal/icon marker, a date-stamped path segment,
and `url_year >= now.year - 1` (Python's subtraction on a `datetime`
year, which is at least 1, agrees with truncated `Nat` subtraction).
Returns the detected `(year, month)` when the candidate qualifies. -/
def candDate (nowYear : Nat) (src : String) : Option (Nat × Nat) :=
  if !containsSub (pyLower src) "ecatholic" then Option.none
  else if containsSub (pyLower src) "logo" || containsSub (pyLower src) "seal"
      || containsSub (pyLower src) "icon" then Option.none
  else
    match dateSearch src with
    | Option.none => Option.none
    | some (y, m) => if nowYear - 1 ≤ y then some (y, m) else Option.none

/-- The loop state of `extract_menu_meta_from_images`
(`image_url`, `detected_year`, `detected_month`). -/
structure LocState where
  image_url : Option String
  detected_year : Option Nat
  detected_month : Option Nat
deriving Repr, DecidableEq

/-- One iteration of the candidate loop (lines 63-77): a qualifying
candidate overwrites the state if it contains `".jpg"` (case-insensitive,
anywhere in the URL) or if no candidate has been kept yet. -/
def locStep (nowYear : Nat) (st : LocState) (src : String) : LocState :=
  match candDate nowYear src with
  | Option.none => st
  | some (y, m) =>
    if containsSub (pyLower src) ".jpg" || st.image_url.isNone then
      ⟨some src, some y, some m⟩
    else st

/-- The fixed page URL (`MENU_URL`, line 30). -/
def MENU_URL : String := "https://www.sgmission.org/lunch-menu"

/-- Does the URL start with a scheme (`alpha (alnum|+|-|.)* :`)? -/
def hasScheme (url : String) : Bool :=
  match url.data with
  | c :: rest => c.isAlpha && schemeRest rest
  | [] => false
where
  schemeRest : List Char → Bool
    | [] => false
    | ':' :: _ => true
    | c :: r => (c.isAlphanum || c = '+' || c = '-' || c = '.') && schemeRest r

/-- `urllib.parse.urljoin(MENU_URL, url)` for the URL shapes a page can
contain: absolute URLs pass through; `//host/...` gains the base scheme;
`/path` is resolved against the base host; a bare relative path replaces
the base's last path segment (`/lunch-menu`).  Dot segments are not
modelled (none occur). -/
def urljoin (base url : String) : String :=
  if url.isEmpty then base
  else if hasScheme url then url
  else if "//".data.isPrefixOf url.data then "https:" ++ url
  else if url.data.headD ' ' = '/' then "https://www.sgmission.org" ++ url
  else "https://www.sgmission.org/" ++ url

/-- `f"{year}-{month_num:02d}"` (line 100; the year is not padded). -/
def monthKeyStr (year month : Int) : String := intStr year ++ "-" ++ fmt02 month

/-- The `MenuMeta` dict produced by the locator / env override. -/
structure MenuMeta where
  month_name : String
  year : Int
  month_num : Int
  image_url : String
  month_key : String
deriving Repr, DecidableEq

/-- The fallback of lines 94-98: no usable detected date, so use `now`'s
month and year (`now.strftime("%B")` is the capitalised month name)
while keeping the chosen URL. -/
def fallbackMeta (now : PyDateTime) (u2 : String) : MenuMeta :=
  ⟨(monthName? (now.month : Int)).getD "", (now.year : Int), (now.month : Int), u2,
    monthKeyStr (now.year : Int) (now.month : Int)⟩

/-- `extract_menu_meta_from_images(image_urls, now)` (lines 58-108).
`Except.error` covers both the explicit `ValueError` (no candidate) and
the unhandled `KeyError` from `MONTH_NAMES[month_num]` (line 93).
Line 90's `if detected_year and detected_month:` tests Python
truthiness, so a detected value of `0` routes to the fallback. -/
def extract_menu_meta_from_images (image_urls : List String) (now : PyDateTime) :
    Except String MenuMeta :=
  let st := image_urls.foldl (locStep now.year) ⟨Option.none, Option.none, Option.none⟩
  let image_url : Option String :=
    match st.image_url with
    | some u => some u
    | Option.none =>
      image_urls.find? (fun src =>
        containsSub (pyLower src) "ecatholic" && containsSub (pyLower src) ".jpg"
          && !containsSub (pyLower src) "logo")
  match image_url with
  | Option.none => Except.error "Could not find menu image on page"
  | some u =>
    let u2 := urljoin MENU_URL u
    match st.detected_year, st.detected_month with
    | some y, some m =>
      if y ≠ 0 && m ≠ 0 then
        match monthName? (m : Int) with
        | some nm =>
          Except.ok ⟨nm, (y : Int), (m : Int), u2, monthKeyStr (y : Int) (m : Int)⟩
        | Option.none => Except.error ("KeyError: " ++ natStr m)
      else Except.ok (fallbackMeta now u2)
    | _, _ => Except.ok (fallbackMeta now u2)

/-! ## Structured Extractor response parsing (lines 254-267) -/

/-- Match the fenced-block pattern
`` ```(?:json)?\s*([\s\S]*?)\s*``` `` anchored at the current position,
returning capture group 1.  The lazy middle group together with the
greedy `\s*` on both sides means: skip `` ``` `` and an optional `json`,
skip whitespace, and the group extends to the first following
`` ``` ``, with trailing whitespace stripped. -/
def fencedMatchAt (cs : List Char) : Option String :=
  let tick3 : List Char := ['\x60', '\x60', '\x60']
  if tick3.isPrefixOf cs then
    let cs1 := cs.drop 3
    let cs2 := if "json".data.isPrefixOf cs1 then cs1.drop 4 else cs1
    let cs3 := cs2.dropWhile pyIsSpace
    match (List.range (cs3.length + 1)).find? (fun i => tick3.isPrefixOf (cs3.drop i)) with
    | some p => some ⟨((cs3.take p).reverse.dropWhile pyIsSpace).reverse⟩
    | Option.none => Option.none
  else Option.none

/-- `re.search` for the fenced-block pattern: leftmost match. -/
def fencedSearch (s : String) : Option String :=
  (List.range (s.data.length + 1)).findSome? (fun i => fencedMatchAt (s.data.drop i))

/-- `re.search(r'\{[\s\S]*\}', s)`: from the first `{` to the last `}`
(greedy), provided the `}` comes after the `{`. -/
def braceSearch (s : String) : Option String :=
  let cs := s.data
  match cs.findIdx? (fun c => c = '\x7b') with
  | Option.none => Option.none
  | some i =>
    match cs.reverse.findIdx? (fun c => c = '\x7d') with
    | Option.none => Option.none
    | some rj =>
      let j := cs.length - 1 - rj
      if i < j then some ⟨(cs.drop i).take (j - i + 1)⟩ else Option.none

/-- Outcome of the response-parsing block (lines 254-267).
`jsonError` is an uncaught `json.JSONDecodeError` escaping from the
second or third strategy; `extractionError` is the explicit
`ValueError` of line 267. -/
inductive ParseOutcome where
  | ok (v : Json)
  | jsonError
  | extractionError (msg : String)
deriving Repr

/-- Lines 254-267: strip the response, try `json.loads` directly; on
failure find a fenced block and `json.loads` its contents *without a
surrounding try* (a failure there propagates); else find a `{...}` span
and `json.loads` it, again unguarded; else raise `ValueError` with a
500-character prefix. -/
def parse_gemini_response (raw : String) : ParseOutcome :=
  match jsonLoads (pyStrip raw) with
  | some v => ParseOutcome.ok v
  | Option.none =>
    match fencedSearch (pyStrip raw) with
    | some inner =>
      match jsonLoads inner with
      | some v => ParseOutcome.ok v
      | Option.none => ParseOutcome.jsonError
    | Option.none =>
      match braceSearch (pyStrip raw) with
      | some span =>
        match jsonLoads span with
        | some v => ParseOutcome.ok v
        | Option.none => ParseOutcome.jsonError
      | Option.none =>
        ParseOutcome.extractionError
          ("Could not parse Gemini response as JSON: " ++ pyTake (pyStrip raw) 500)

/-! ## Image Fetcher (`download_image`, lines 165-206) -/

/-- An HTTP response as seen by `requests.get`: status code, body bytes,
and the `content-type` header (defaulted to `""`). -/
structure HttpResponse where
  status_code : Int
  content : List Nat
  content_type : String
deriving Repr, DecidableEq

/-- File-extension sniffing (lines 194-199). -/
def extFor (image_url : String) (content_type : String) : String :=
  if containsSub content_type "png" || ".png".data.isSuffixOf (pyLower image_url).data then
    ".png"
  else if containsSub content_type "gif" || ".gif".data.isSuffixOf (pyLower image_url).data then
    ".gif"
  else ".jpg"

/-- `download_image` (lines 165-206), with the two transports supplied
as oracles: `primary` is the `requests.get` response (`none` = the call
raised), `curl` is the fallback subprocess's `(returncode, stdout)`
(`none` = it raised or timed out).  Returns the downloaded bytes, the
storage extension, and whether the fallback transport produced the
bytes.  The primary result is kept only on status code exactly 200; an
empty body (Python falsiness of `b""`) also triggers the fallback. -/
def download_image (image_url : String)
    (primary : Option HttpResponse) (curl : Option (Int × List Nat)) :
    Except String (List Nat × String × Bool) :=
  let fromPrimary : Option (List Nat) × String :=
    match primary with
    | some r => if r.status_code = 200 then (some r.content, r.content_type) else (Option.none, "")
    | Option.none => (Option.none, "")
  let image_data := fromPrimary.1
  let content_type := fromPrimary.2
  let dataFalsy : Bool :=
    match image_data with
    | Option.none => true
    | some bs => bs.isEmpty
  if dataFalsy then
    match curl with
    | some (rc, out) =>
      if rc = 0 && !out.isEmpty then Except.ok (out, extFor image_url content_type, true)
      else Except.error ("Could not download image from " ++ image_url)
    | Option.none => Except.error ("Could not download image from " ++ image_url)
  else Except.ok (image_data.getD [], extFor image_url content_type, false)

/-! ## Update Controller (`main` and helpers, lines 111-361)

`main` is embedded as a function from the process environment and an
explicit external world (page-load result, transport responses,
vision-service response text, persistence state) to the process exit
code together with a trace of the observable effects, in order. -/

/-- The recognised environment variables (lines 136-137, 215). -/
structure Env where
  gemini_api_key : Option String
  menu_image_url : Option String
  menu_month : Option String
deriving Repr, DecidableEq

/-- Observable effects of a run.  `statusWrite` models the spec's
StatusRecord persistence; the source never performs it (no `write_status`
exists in the module), so `runMain` never emits it — the constructor
exists so that its absence from a trace is expressible. -/
inductive Ev where
  | pageLoad
  | download
  | geminiCall
  | statusWrite (state current_month menu_month_detected : String)
  | menuWrite (month_key : String)
deriving Repr, DecidableEq

/-- Result of the browser page load: either an anti-bot challenge page
(line 124) or the list of `img` `src` attributes (line 128). -/
inductive PageResult where
  | challenge
  | images (urls : List String)

/-- The external world one run observes. -/
structure World where
  now : PyDateTime
  page : PageResult
  primary : Option HttpResponse
  curl : Option (Int × List Nat)
  geminiText : String
  menuExists : String → Bool

/-- `get_menu_meta_from_env()` (lines 134-162): `none` inside `ok` means
no override is configured (including an empty `MENU_IMAGE_URL`, which is
falsy).  A malformed `MENU_MONTH` raises `ValueError`/`KeyError`. -/
def get_menu_meta_from_env (env : Env) (now : PyDateTime) :
    Except String (Option MenuMeta) :=
  let image_url : Option String :=
    match env.menu_image_url with
    | some s => if s.isEmpty then Option.none else some s
    | Option.none => Option.none
  match image_url with
  | Option.none => Except.ok Option.none
  | some u =>
    let month_override : Option String :=
      match env.menu_month with
      | some s => if s.isEmpty then Option.none else some s
      | Option.none => Option.none
    match month_override with
    | some mo =>
      match parse_month_key mo with
      | Option.none => Except.error "ValueError: invalid MENU_MONTH"
      | some (y, m) =>
        match monthName? m with
        | Option.none => Except.error ("KeyError: " ++ intStr m)
        | some nm => Except.ok (some ⟨nm, y, m, u, monthKeyStr y m⟩)
    | Option.none =>
      match monthName? (now.month : Int) with
      | Option.none => Except.error "KeyError"
      | some nm =>
        Except.ok (some ⟨nm, (now.year : Int), (now.month : Int), u,
          monthKeyStr (now.year : Int) (now.month : Int)⟩)

/-- Resolve the `MenuMeta` (lines 334-336): environment override first,
else `fetch_menu_meta_with_playwright()`, whose page load is the first
network effect and which fails distinctly on a challenge page. -/
def resolveMeta (env : Env) (w : World) : List Ev × Except String MenuMeta :=
  match get_menu_meta_from_env env w.now with
  | Except.error e => ([], Except.error e)
  | Except.ok (some m) => ([], Except.ok m)
  | Except.ok Option.none =>
    match w.page with
    | PageResult.challenge => ([Ev.pageLoad], Except.error "Cloudflare challenge detected")
    | PageResult.images urls => ([Ev.pageLoad], extract_menu_meta_from_images urls w.now)

/-- Insert into a Python dict built by repeated assignment: a repeated
key keeps its first position and takes the latest value. -/
def dictInsert (acc : List (String × PyVal)) (k : String) (v : PyVal) :
    List (String × PyVal) :=
  if acc.any (fun p => p.1 == k) then acc.map (fun p => if p.1 == k then (k, v) else p)
  else acc ++ [(k, v)]

/-- Build a Python dict from parsed members in order. -/
def buildDict (l : List (String × PyVal)) : List (String × PyVal) :=
  l.foldl (fun acc p => dictInsert acc p.1 p.2) []

mutual

/-- Convert a decoded JSON value to the Python value it becomes:
a number without `.`/`e`/`E` (and not a special constant) is an `int`,
otherwise a `float`. -/
def jsonToPyVal : Json → PyVal
  | Json.null => PyVal.none
  | Json.bool b => PyVal.bool b
  | Json.str s => PyVal.str s
  | Json.num lex =>
    if lex.data.any (fun c => c = '.' || c = 'e' || c = 'E')
        || lex = "NaN" || lex = "Infinity" || lex = "-Infinity" then
      PyVal.float lex
    else PyVal.int ((pyInt? lex).getD 0)
  | Json.arr xs => PyVal.list (jsonListToPyVal xs)
  | Json.obj kvs => PyVal.dict (buildDict (jsonMembersToPyVal kvs))

/-- Elementwise conversion of a JSON array. -/
def jsonListToPyVal : List Json → List PyVal
  | [] => []
  | v :: vs => jsonToPyVal v :: jsonListToPyVal vs

/-- Entrywise conversion of JSON object members. -/
def jsonMembersToPyVal : List (String × Json) → List (String × PyVal)
  | [] => []
  | (k, v) :: kvs => (k, jsonToPyVal v) :: jsonMembersToPyVal kvs

end

/-- The parsed response must be a dict to survive `len(menu_map)` /
`menu_map.items()`; any other document type raises on one of those and
the run fails (collapsed into `none` here). -/
def jsonObjToMap : Json → Option (List (String × PyVal))
  | Json.obj kvs => some (buildDict (jsonMembersToPyVal kvs))
  | _ => Option.none

/-- `datetime.now().strftime("%Y-%m")` (line 339; glibc's `%Y` does not
zero-pad, matching the unpadded year in `monthKeyStr`). -/
def currentMonthKey (now : PyDateTime) : String :=
  natStr now.year ++ "-" ++ fmt02 (now.month : Int)

/-- Lines 348-351 of `main()`: the needs-update pipeline, entered with
the resolved `meta` and the events already emitted (`evs`).  The
download attempt is the `download_image` call itself; the vision call
happens only after the `GEMINI_API_KEY` check at lines 215-217 (an
absent or empty key is falsy and raises `ValueError` there). -/
def runPipeline (env : Env) (w : World) (meta : MenuMeta) (evs : List Ev) :
    Nat × List Ev :=
  match download_image meta.image_url w.primary w.curl with
  | Except.error _ => (1, evs ++ [Ev.download])
  | Except.ok _ =>
    match env.gemini_api_key with
    | Option.none => (1, evs ++ [Ev.download])
    | some key =>
      if key.isEmpty then (1, evs ++ [Ev.download])
      else
        match parse_gemini_response w.geminiText with
        | ParseOutcome.ok j =>
          match jsonObjToMap j with
          | Option.none => (1, evs ++ [Ev.download, Ev.geminiCall])
          | some mm =>
            match validate_menu_map mm meta.month_key with
            | Except.error _ => (1, evs ++ [Ev.download, Ev.geminiCall])
            | Except.ok _ =>
              (0, evs ++ [Ev.download, Ev.geminiCall, Ev.menuWrite meta.month_key])
        | _ => (1, evs ++ [Ev.download, Ev.geminiCall])

/-- `main()` (lines 327-361): returns the exit code and the trace of
observable effects.  Every uncaught exception is caught at line 358 and
becomes exit code 1.  Note the stale-month branch (lines 340-342) emits
nothing: it only prints and returns 0. -/
def runMain (env : Env) (w : World) : Nat × List Ev :=
  match resolveMeta env w with
  | (evs, Except.error _) => (1, evs)
  | (evs, Except.ok meta) =>
    if meta.month_key ≠ currentMonthKey w.now then (0, evs)
    else if w.menuExists meta.month_key then (0, evs)
    else runPipeline env w meta evs

/-! ## Derived definitions used to state the claims -/

/-- `pyStrip` at the level of character lists. -/
def stripL (l : List Char) : List Char :=
  ((l.dropWhile pyIsSpace).reverse.dropWhile pyIsSpace).reverse

/-- Inject a validated value back into a raw Python value (re-feeding the
validator its own output). -/
def optToPy : Option String → PyVal
  | Option.none => PyVal.none
  | some s => PyVal.str s

/-- Well-formedness of a modelled Python value: a `float`'s stored
literal is an actual numeric literal, i.e. nonempty and whitespace-free
(every value produced by decoding JSON satisfies this). -/
def pyValWF : PyVal → Bool
  | PyVal.float lex => !lex.isEmpty && lex.data.all (fun c => !pyIsSpace c)
  | _ => true

/-- A candidate that qualifies in the locator loop (passes all filters
with a usable date). -/
def validCand (nowYear : Nat) (src : String) : Bool :=
  (candDate nowYear src).isSome

/-- A qualifying candidate that also contains `".jpg"` (these always
overwrite the loop state). -/
def validJpg (nowYear : Nat) (src : String) : Bool :=
  (candDate nowYear src).isSome && containsSub (pyLower src) ".jpg"

/-- Last element of a list satisfying a predicate. -/
def lastSat (p : α → Bool) : List α → Option α
  | [] => Option.none
  | a :: l =>
    match lastSat p l with
    | some b => some b
    | Option.none => if p a then some a else Option.none

/-- The loop state recording candidate `w` and its detected date. -/
def stateOf (nowYear : Nat) (w : String) : LocState :=
  ⟨some w, (candDate nowYear w).map Prod.fst, (candDate nowYear w).map Prod.snd⟩

/-! ## Helper lemmas: the key order and the stable sort -/

theorem charListLe_total : ∀ as bs : List Char,
    charListLe as bs = true ∨ charListLe bs as = true := by
  intro as
  induction as with
  | nil => intro bs; left; rfl
  | cons a as ih =>
    intro bs
    cases bs with
    | nil => right; rfl
    | cons b bs =>
      by_cases hab : a < b
      · left; simp [charListLe, hab]
      · by_cases hba : b < a
        · right; simp [charListLe, hba]
        · rcases ih bs with h | h
          · left; simp [charListLe, hab, hba, h]
          · right; simp [charListLe, hab, hba, h]

theorem charListLe_trans : ∀ as bs cs : List Char,
    charListLe as bs = true → charListLe bs cs = true → charListLe as cs = true := by
  intro as
  induction as with
  | nil => intro bs cs _ _; rfl
  | cons a as ih =>
    intro bs cs h1 h2
    cases bs with
    | nil => simp [charListLe] at h1
    | cons b bs =>
      cases cs with
      | nil => simp [charListLe] at h2
      | cons c cs =>
        have hvt : ∀ x y : Char, ¬x < y → ¬y < x → x = y := by
          intro x y hxy hyx
          exact le_antisymm (le_of_not_lt hyx) (le_of_not_lt hxy)
        by_cases hab : a < b <;> by_cases hbc : b < c
        · have hac : a < c := lt_trans hab hbc
          simp [charListLe, hac]
        · by_cases hcb : c < b
          · simp [charListLe, hbc, hcb] at h2
          · have : b = c := hvt b c hbc hcb
            subst this
            simp [charListLe, hab]
        · by_cases hba : b < a
          · simp [charListLe, hab, hba] at h1
          · have : a = b := hvt a b hab hba
            subst this
            simp [charListLe, hbc]
        · by_cases hba : b < a
          · simp [charListLe, hab, hba] at h1
          · have hab' : a = b := hvt a b hab hba
            subst hab'
            by_cases hcb : c < a
            · simp [charListLe, hbc, hcb] at h2
            · have hac : a = c := hvt a c hbc hcb
              subst hac
              simp [charListLe] at h1 h2 ⊢
              exact ih _ _ h1 h2

theorem kle_total (a b : String × Option String) : kle a b = true ∨ kle b a = true :=
  charListLe_total a.1.data b.1.data

theorem kle_trans {a b c : String × Option String}
    (h1 : kle a b = true) (h2 : kle b c = true) : kle a c = true :=
  charListLe_trans _ _ _ h1 h2

theorem mem_insSorted (a x : String × Option String) :
    ∀ l, x ∈ insSorted a l ↔ x = a ∨ x ∈ l := by
  intro l
  induction l with
  | nil => simp [insSorted]
  | cons b l ih =>
    by_cases h : kle a b
    · simp [insSorted, h]
    · simp only [insSorted, if_neg h, List.mem_cons, ih]
      tauto

theorem mem_sortPairs (x : String × Option String) :
    ∀ l, x ∈ sortPairs l ↔ x ∈ l := by
  intro l
  induction l with
  | nil => simp [sortPairs]
  | cons a l ih => simp [sortPairs, mem_insSorted, ih]

theorem length_insSorted (a : String × Option String) :
    ∀ l, (insSorted a l).length = l.length + 1 := by
  intro l
  induction l with
  | nil => rfl
  | cons b l ih =>
    by_cases h : kle a b
    · simp [insSorted, h]
    · simp [insSorted, h, ih]

theorem length_sortPairs : ∀ l, (sortPairs l).length = l.length := by
  intro l
  induction l with
  | nil => rfl
  | cons a l ih => simp [sortPairs, length_insSorted, ih]

theorem sortPairs_eq_nil_iff (l : List (String × Option String)) :
    sortPairs l = [] ↔ l = [] := by
  constructor
  · intro h
    have := length_sortPairs l
    rw [h] at this
    exact List.length_eq_zero.mp this.symm
  · intro h; subst h; rfl

theorem pairwise_insSorted (a : String × Option String) :
    ∀ l, List.Pairwise (fun x y => kle x y = true) l →
      List.Pairwise (fun x y => kle x y = true) (insSorted a l) := by
  intro l
  induction l with
  | nil => intro _; simp [insSorted]
  | cons b l ih =>
    intro h
    rcases List.pairwise_cons.mp h with ⟨hb, hl⟩
    by_cases hab : kle a b
    · have he : insSorted a (b :: l) = a :: b :: l := by simp [insSorted, hab]
      rw [he]
      refine List.pairwise_cons.mpr ⟨?_, h⟩
      intro x hx
      rcases List.mem_cons.mp hx with rfl | hx
      · exact hab
      · exact kle_trans hab (hb x hx)
    · have he : insSorted a (b :: l) = b :: insSorted a l := by simp [insSorted, hab]
      rw [he]
      refine List.pairwise_cons.mpr ⟨?_, ih hl⟩
      intro x hx
      rcases (mem_insSorted a x l).mp hx with hxa | hx
      · subst hxa
        rcases kle_total x b with h' | h'
        · exact absurd h' hab
        · exact h'
      · exact hb x hx

theorem pairwise_sortPairs :
    ∀ l, List.Pairwise (fun x y => kle x y = true) (sortPairs l) := by
  intro l
  induction l with
  | nil => simp [sortPairs]
  | cons a l ih => exact pairwise_insSorted a _ ih

theorem sortPairs_of_pairwise :
    ∀ l, List.Pairwise (fun x y => kle x y = true) l → sortPairs l = l := by
  intro l
  induction l with
  | nil => intro _; rfl
  | cons a l ih =>
    intro h
    rcases List.pairwise_cons.mp h with ⟨ha, hl⟩
    show insSorted a (sortPairs l) = a :: l
    rw [ih hl]
    cases l with
    | nil => rfl
    | cons b l' => simp [insSorted, ha b (List.mem_cons_self b l')]

/-! ## Helper lemmas: stripping and integer formatting -/

theorem dropWhile_head_not (p : Char → Bool) :
    ∀ (l : List Char) (a : Char) (t : List Char),
      l.dropWhile p = a :: t → p a = false := by
  intro l
  induction l with
  | nil => intro a t h; simp at h
  | cons b l ih =>
    intro a t h
    by_cases hp : p b
    · rw [List.dropWhile_cons, if_pos hp] at h
      exact ih a t h
    · rw [List.dropWhile_cons, if_neg hp] at h
      cases h
      simpa using hp

theorem dropWhile_eq_self_of_head (p : Char → Bool) (l : List Char)
    (h : ∀ a t, l = a :: t → p a = false) : l.dropWhile p = l := by
  cases l with
  | nil => rfl
  | cons a t => rw [List.dropWhile_cons, if_neg (by simp [h a t rfl])]

theorem stripL_eq_self (l : List Char)
    (hh : ∀ a t, l = a :: t → pyIsSpace a = false)
    (hr : ∀ a t, l.reverse = a :: t → pyIsSpace a = false) : stripL l = l := by
  unfold stripL
  rw [dropWhile_eq_self_of_head _ _ hh, dropWhile_eq_self_of_head _ _ hr,
    List.reverse_reverse]

theorem stripL_reverse_head :
    ∀ l a t, (stripL l).reverse = a :: t → pyIsSpace a = false := by
  intro l a t h
  rw [stripL, List.reverse_reverse] at h
  exact dropWhile_head_not _ _ _ _ h

theorem stripL_head : ∀ l a t, stripL l = a :: t → pyIsSpace a = false := by
  intro l a t h
  unfold stripL at h
  set A := l.dropWhile pyIsSpace with hA
  set C := A.reverse.dropWhile pyIsSpace with hC
  have hCne : C ≠ [] := by
    intro hnil
    rw [hnil] at h
    simp at h
  have hsuff : C <:+ A.reverse := by
    rw [hC]; exact List.dropWhile_suffix _
  rcases hsuff with ⟨pre, hpre⟩
  have hlastC : C.getLast? = some a := by
    have : C.reverse = a :: t := h
    have := congrArg List.reverse this
    rw [List.reverse_reverse] at this
    rw [this]
    simp [List.getLast?_append_of_ne_nil, List.getLast?_concat]
  have hlastA : A.reverse.getLast? = some a := by
    rw [← hpre, List.getLast?_append_of_ne_nil _ hCne, hlastC]
  have hheadA : A.head? = some a := by
    rw [← List.getLast?_reverse, hlastA]
  cases hA' : A with
  | nil => rw [hA'] at hheadA; simp at hheadA
  | cons x xs =>
    rw [hA'] at hheadA
    simp at hheadA
    subst hheadA
    exact dropWhile_head_not pyIsSpace l x xs hA'

theorem stripL_idem (l : List Char) : stripL (stripL l) = stripL l :=
  stripL_eq_self _ (stripL_head l) (stripL_reverse_head l)

theorem pyStrip_data (s : String) : pyStrip s = ⟨stripL s.data⟩ := rfl

theorem pyStrip_pyStrip (s : String) : pyStrip (pyStrip s) = pyStrip s := by
  rw [pyStrip_data, pyStrip_data]
  exact congrArg String.mk (stripL_idem s.data)

theorem stripL_of_all (l : List Char)
    (h : l.all (fun c => !pyIsSpace c) = true) : stripL l = l := by
  apply stripL_eq_self
  · intro a t hl
    have := (List.all_eq_true.mp h) a (by rw [hl]; exact List.mem_cons_self a t)
    simpa using this
  · intro a t hl
    have ha : a ∈ l := by
      rw [← List.mem_reverse, hl]; exact List.mem_cons_self a t
    have := (List.all_eq_true.mp h) a ha
    simpa using this

theorem stripL_bracketed (a b : Char) (mid : List Char)
    (ha : pyIsSpace a = false) (hb : pyIsSpace b = false) :
    stripL (a :: (mid ++ [b])) = a :: (mid ++ [b]) := by
  apply stripL_eq_self
  · intro x t hx
    cases hx
    exact ha
  · intro x t hx
    rw [List.reverse_cons, List.reverse_append] at hx
    simp at hx
    rcases hx with ⟨hxb, _⟩
    rw [hxb] at hb
    exact hb

theorem digitChar_not_space (k : Nat) : pyIsSpace (digitChar k) = false := by
  rcases k with _ | _ | _ | _ | _ | _ | _ | _ | _ | _ | n <;> rfl

theorem natCharsAux_no_space :
    ∀ fuel n, (natCharsAux fuel n).all (fun c => !pyIsSpace c) = true := by
  intro fuel
  induction fuel with
  | zero => intro n; rfl
  | succ fuel ih =>
    intro n
    rw [natCharsAux]
    split
    · simp [digitChar_not_space]
    · simp [List.all_append, ih (n / 10), digitChar_not_space]

theorem natChars_no_space (n : Nat) :
    (natChars n).all (fun c => !pyIsSpace c) = true :=
  natCharsAux_no_space (n + 1) n

theorem natChars_ne_nil (n : Nat) : natChars n ≠ [] := by
  show natCharsAux (n + 1) n ≠ []
  rw [natCharsAux]
  split
  · simp
  · simp

theorem intStr_no_space (i : Int) :
    (intStr i).data.all (fun c => !pyIsSpace c) = true := by
  unfold intStr natStr
  split
  · rw [String.data_append]
    simp only [List.all_append]
    rw [natChars_no_space]
    decide
  · exact natChars_no_space _

theorem intStr_ne_empty (i : Int) : intStr i ≠ "" := by
  unfold intStr natStr
  intro h
  split at h
  · rw [String.ext_iff, String.data_append] at h
    simp at h
  · rw [String.ext_iff] at h
    exact natChars_ne_nil _ (by simpa using h)

/-! ## Helper lemmas: value coercion -/

theorem coerce_value_other (v : PyVal) (h1 : v ≠ PyVal.none)
    (h2 : ∀ s0, v ≠ PyVal.str s0) :
    coerce_value v = if truthy v then some (pyStr v) else Option.none := by
  cases v with
  | none => exact absurd rfl h1
  | str s0 => exact absurd rfl (h2 s0)
  | int n => rfl
  | bool b => rfl
  | float lex => rfl
  | list xs => rfl
  | dict kvs => rfl

theorem pyStrip_of_all_no_space (s : String)
    (h : s.data.all (fun c => !pyIsSpace c) = true) : pyStrip s = s := by
  rw [pyStrip_data, stripL_of_all s.data h]

theorem coerce_value_str (s0 : String) :
    coerce_value (PyVal.str s0) =
      if pyStrip s0 = "" then Option.none else some (pyStrip s0) := rfl

theorem coerce_strip_safe :
    ∀ v : PyVal, pyValWF v = true →
      ∀ s, coerce_value v = some s → pyStrip s = s ∧ s ≠ "" := by
  intro v hwf s hc
  cases v with
  | none => simp [coerce_value] at hc
  | str s0 =>
    rw [coerce_value_str] at hc
    split at hc
    · simp at hc
    · rename_i hne
      rw [Option.some_inj] at hc
      subst hc
      exact ⟨pyStrip_pyStrip s0, hne⟩
  | int n =>
    rw [coerce_value_other _ (by simp) (by simp)] at hc
    split at hc
    · rw [Option.some_inj] at hc
      subst hc
      refine ⟨pyStrip_of_all_no_space _ ?_, intStr_ne_empty n⟩
      exact intStr_no_space n
    · simp at hc
  | bool b =>
    rw [coerce_value_other _ (by simp) (by simp)] at hc
    split at hc
    · rename_i ht
      rw [Option.some_inj] at hc
      subst hc
      have hb : b = true := by
        simpa [truthy] using ht
      subst hb
      exact ⟨by decide, by decide⟩
    · simp at hc
  | float lex =>
    rw [coerce_value_other _ (by simp) (by simp)] at hc
    split at hc
    · rw [Option.some_inj] at hc
      subst hc
      simp only [pyValWF, Bool.and_eq_true, Bool.not_eq_true'] at hwf
      refine ⟨pyStrip_of_all_no_space _ hwf.2, ?_⟩
      intro h
      have hlex : lex = "" := h
      exact absurd hwf.1 (by rw [hlex]; decide)
    · simp at hc
  | list xs =>
    rw [coerce_value_other _ (by simp) (by simp)] at hc
    split at hc
    · rw [Option.some_inj] at hc
      subst hc
      have hd : (pyStr (PyVal.list xs)).data =
          '[' :: ((String.intercalate ", " (pyReprList xs)).data ++ [']']) := by
        show ("[" ++ String.intercalate ", " (pyReprList xs) ++ "]").data = _
        rw [String.data_append, String.data_append, List.append_assoc]
        rfl
      constructor
      · rw [pyStrip_data, hd, stripL_bracketed '[' ']' _ (by decide) (by decide)]
        exact (String.ext hd.symm :)
      · intro h
        rw [String.ext_iff, hd] at h
        simp at h
    · simp at hc
  | dict kvs =>
    rw [coerce_value_other _ (by simp) (by simp)] at hc
    split at hc
    · rw [Option.some_inj] at hc
      subst hc
      have hd : (pyStr (PyVal.dict kvs)).data =
          '\x7b' :: ((String.intercalate ", " (pyReprDict kvs)).data ++ ['\x7d']) := by
        show ("\x7b" ++ String.intercalate ", " (pyReprDict kvs) ++ "\x7d").data = _
        rw [String.data_append, String.data_append, List.append_assoc]
        rfl
      constructor
      · rw [pyStrip_data, hd, stripL_bracketed '\x7b' '\x7d' _ (by decide) (by decide)]
        exact (String.ext hd.symm :)
      · intro h
        rw [String.ext_iff, hd] at h
        simp at h
    · simp at hc

/-! ## Helper lemmas: the locator loop -/

theorem lastSat_cons (p : α → Bool) (a : α) (l : List α) :
    lastSat p (a :: l) =
      match lastSat p l with
      | some b => some b
      | Option.none => if p a then some a else Option.none := rfl

theorem foldl_locStep_set (nowYear : Nat) :
    ∀ (urls : List String) (st : LocState), st.image_url.isSome = true →
      urls.foldl (locStep nowYear) st =
        ((lastSat (validJpg nowYear) urls).map (stateOf nowYear)).getD st := by
  intro urls
  induction urls with
  | nil => intro st _; rfl
  | cons u us ih =>
    intro st hset
    rcases st with ⟨iu, dy, dm⟩
    cases iu with
    | none => simp at hset
    | some v =>
      show us.foldl (locStep nowYear) (locStep nowYear ⟨some v, dy, dm⟩ u) = _
      cases hcd : candDate nowYear u with
      | none =>
        have hstep : locStep nowYear ⟨some v, dy, dm⟩ u = ⟨some v, dy, dm⟩ := by
          simp [locStep, hcd]
        have hvj : validJpg nowYear u = false := by simp [validJpg, hcd]
        rw [hstep, ih _ (by simp)]
        rw [lastSat_cons]
        cases hls : lastSat (validJpg nowYear) us <;> simp [hls, hvj]
      | some ym =>
        by_cases hj : containsSub (pyLower u) ".jpg"
        · have hstep : locStep nowYear ⟨some v, dy, dm⟩ u = stateOf nowYear u := by
            simp [locStep, hcd, hj, stateOf]
          have hvj : validJpg nowYear u = true := by simp [validJpg, hcd, hj]
          rw [hstep, ih _ (by simp [stateOf])]
          rw [lastSat_cons]
          cases hls : lastSat (validJpg nowYear) us <;> simp [hls, hvj]
        · have hstep : locStep nowYear ⟨some v, dy, dm⟩ u = ⟨some v, dy, dm⟩ := by
            simp [locStep, hcd, hj]
          have hvj : validJpg nowYear u = false := by
            simp [validJpg, hcd, hj]
          rw [hstep, ih _ (by simp)]
          rw [lastSat_cons]
          cases hls : lastSat (validJpg nowYear) us <;> simp [hls, hvj]

theorem foldl_locStep_unset (nowYear : Nat) :
    ∀ urls : List String,
      urls.foldl (locStep nowYear) ⟨Option.none, Option.none, Option.none⟩ =
        ((lastSat (validJpg nowYear) urls).map (stateOf nowYear)).getD
          (((urls.find? (validCand nowYear)).map (stateOf nowYear)).getD
            ⟨Option.none, Option.none, Option.none⟩) := by
  intro urls
  induction urls with
  | nil => rfl
  | cons u us ih =>
    show us.foldl (locStep nowYear)
        (locStep nowYear ⟨Option.none, Option.none, Option.none⟩ u) = _
    cases hcd : candDate nowYear u with
    | none =>
      have hstep : locStep nowYear ⟨Option.none, Option.none, Option.none⟩ u =
          ⟨Option.none, Option.none, Option.none⟩ := by simp [locStep, hcd]
      have hvj : validJpg nowYear u = false := by simp [validJpg, hcd]
      have hvc : validCand nowYear u = false := by simp [validCand, hcd]
      rw [hstep, ih, lastSat_cons]
      rw [List.find?_cons_of_neg _ (by simp [hvc])]
      cases hls : lastSat (validJpg nowYear) us <;> simp [hls, hvj]
    | some ym =>
      have hstep : locStep nowYear ⟨Option.none, Option.none, Option.none⟩ u =
          stateOf nowYear u := by
        simp [locStep, hcd, stateOf]
      have hvc : validCand nowYear u = true := by simp [validCand, hcd]
      rw [hstep, foldl_locStep_set nowYear us _ (by simp [stateOf]), lastSat_cons]
      rw [List.find?_cons_of_pos _ (by simp [hvc])]
      cases hls : lastSat (validJpg nowYear) us with
      | none =>
        by_cases hj : validJpg nowYear u
        · simp [hls, hj]
        · simp [hls, hj]
      | some w => simp [hls]

/-! ## Helper lemmas: the update controller -/

theorem resolve_events (env : Env) (w : World) :
    ∀ e ∈ (resolveMeta env w).1, e = Ev.pageLoad := by
  unfold resolveMeta
  cases get_menu_meta_from_env env w.now with
  | error e => simp
  | ok m =>
    cases m with
    | none =>
      cases w.page with
      | challenge => simp
      | images urls => simp
    | some meta => simp

theorem runMain_stale (env : Env) (w : World) (evs : List Ev) (meta : MenuMeta)
    (h : resolveMeta env w = (evs, Except.ok meta))
    (hst : meta.month_key ≠ currentMonthKey w.now) :
    runMain env w = (0, evs) := by
  unfold runMain
  rw [h]
  simp [hst]

theorem runMain_up_to_date (env : Env) (w : World) (evs : List Ev) (meta : MenuMeta)
    (h : resolveMeta env w = (evs, Except.ok meta))
    (hcur : meta.month_key = currentMonthKey w.now)
    (hex : w.menuExists meta.month_key = true) :
    runMain env w = (0, evs) := by
  have hex' : w.menuExists (currentMonthKey w.now) = true := hcur ▸ hex
  unfold runMain
  rw [h]
  simp [hcur, hex']

theorem runPipeline_menuWrite (env : Env) (w : World) (meta : MenuMeta)
    (evs : List Ev) (k : String)
    (h : Ev.menuWrite k ∈ (runPipeline env w meta evs).2) :
    Ev.menuWrite k ∈ evs ∨ k = meta.month_key := by
  unfold runPipeline at h
  split at h
  · left; simpa using h
  · split at h
    · left; simpa using h
    · split at h
      · left; simpa using h
      · split at h
        · split at h
          · left; simpa using h
          · split at h
            · left; simpa using h
            · simp only [List.mem_append, List.mem_cons, List.mem_singleton] at h
              rcases h with hmem | hmem
              · left; exact (by simpa using hmem)
              · rcases hmem with hd | hg | hw
                · exact absurd hd (by simp)
                · exact absurd hg (by simp)
                · right; simpa using hw
        · left; simpa using h

theorem menuWrite_mem_trace (env : Env) (w : World) (k : String)
    (h : Ev.menuWrite k ∈ (runMain env w).2) : w.menuExists k = false := by
  have hev := resolve_events env w
  unfold runMain at h
  rcases hres : resolveMeta env w with ⟨evs, mres⟩
  rw [hres] at h hev
  have hnotin : Ev.menuWrite k ∉ evs := by
    intro hmem
    have := hev _ hmem
    simp at this
  cases mres with
  | error e => exact absurd h hnotin
  | ok meta =>
    simp only at h
    split at h
    · exact absurd (by simpa using h) hnotin
    · split at h
      · exact absurd (by simpa using h) hnotin
      · rename_i hst hex
        rcases runPipeline_menuWrite env w meta evs k h with hmem | hk
        · exact absurd hmem hnotin
        · subst hk
          simpa using hex

theorem runPipeline_no_key (env : Env) (w : World) (meta : MenuMeta) (evs : List Ev)
    (hk : env.gemini_api_key = Option.none) :
    runPipeline env w meta evs = (1, evs ++ [Ev.download]) := by
  unfold runPipeline
  cases download_image meta.image_url w.primary w.curl with
  | error e => rfl
  | ok res => rw [hk]

/-! ## Claim theorems -/

/-- C1: the claim states that on a stale month (detected month_key
differing from the current one) a StatusRecord with state "stale image"
is persisted before the successful exit.  The code's stale branch
(lines 340-342) only prints and returns 0: for every run whose resolved
meta is stale, the run exits 0 having written no status record (and
performed no download) — there is no `write_status` in the module at
all, although the test suite calls one. -/
theorem stale_month_run_exits_zero_with_no_status_write
    (env : Env) (w : World) (evs : List Ev) (meta : MenuMeta)
    (h : resolveMeta env w = (evs, Except.ok meta))
    (hst : meta.month_key ≠ currentMonthKey w.now) :
    runMain env w = (0, evs) ∧
      (∀ s c d, Ev.statusWrite s c d ∉ evs) ∧ Ev.download ∉ evs := by
  have hev := resolve_events env w
  rw [h] at hev
  refine ⟨runMain_stale env w evs meta h hst, ?_, ?_⟩
  · intro s c d hmem
    have := hev _ hmem
    simp at this
  · intro hmem
    have := hev _ hmem
    simp at this

/-- C1 witness: a concrete stale run (override for 2026-01, current
month 2026-02) exits 0 with an empty trace — no status write, no
download. -/
theorem stale_month_run_exits_zero_with_no_status_write_witness :
    runMain ⟨some "k", some "https://x/img.jpg", some "2026-01"⟩
      ⟨⟨2026, 2, 3⟩, PageResult.images [], Option.none, Option.none, "", fun _ => false⟩
      = (0, []) ∧
    (∀ s c d, Ev.statusWrite s c d ∉ ([] : List Ev)) ∧ Ev.download ∉ ([] : List Ev) :=
  stale_month_run_exits_zero_with_no_status_write
    ⟨some "k", some "https://x/img.jpg", some "2026-01"⟩
    ⟨⟨2026, 2, 3⟩, PageResult.images [], Option.none, Option.none, "", fun _ => false⟩
    [] ⟨"January", 2026, 1, "https://x/img.jpg", "2026-01"⟩
    rfl (by decide)

/-- C2 counterexample: with `GEMINI_API_KEY` unset, a run that resolves
its meta from the page performs the page load *and* the image download
before failing on the missing credential — the claim's "no page load
and no image download occurs before the configuration failure" is false
at this concrete input (exit 1 with trace `[pageLoad, download]`). -/
theorem missing_api_key_download_still_attempted :
    runMain ⟨Option.none, Option.none, Option.none⟩
      ⟨⟨2026, 1, 15⟩,
        PageResult.images ["https://files.ecatholic.com/pictures/2026/1/menu.jpg"],
        some ⟨200, [7], ""⟩, Option.none, "", fun _ => false⟩
      = (1, [Ev.pageLoad, Ev.download]) := by
  rfl

/-- C2 amended: an absent `GEMINI_API_KEY` makes the run fail with exit
code 1 at the extraction step — after the page load and the image
download have already happened, but before any vision-service call: no
run with the credential unset ever emits `geminiCall`, and any such run
that reaches the download attempt exits 1. -/
theorem missing_api_key_fails_after_download_before_vision_call
    (env : Env) (w : World) (hk : env.gemini_api_key = Option.none) :
    (∀ e ∈ (runMain env w).2, e ≠ Ev.geminiCall) ∧
      (Ev.download ∈ (runMain env w).2 → (runMain env w).1 = 1) := by
  have hev := resolve_events env w
  unfold runMain
  rcases hres : resolveMeta env w with ⟨evs, mres⟩
  rw [hres] at hev
  cases mres with
  | error e =>
    refine ⟨?_, fun _ => rfl⟩
    intro e' he'
    rw [hev e' he']
    simp
  | ok meta =>
    simp only
    split
    · refine ⟨?_, ?_⟩
      · intro e' he'
        rw [hev e' he']
        simp
      · intro hdl
        have := hev _ hdl
        simp at this
    · split
      · refine ⟨?_, ?_⟩
        · intro e' he'
          rw [hev e' he']
          simp
        · intro hdl
          have := hev _ hdl
          simp at this
      · rw [runPipeline_no_key env w meta evs hk]
        refine ⟨?_, fun _ => rfl⟩
        intro e' he'
        simp only [List.mem_append, List.mem_singleton] at he'
        rcases he' with he' | he'
        · rw [hev e' he']
          simp
        · subst he'
          simp

/-- C2 amended witness: the concrete credential-less run above. -/
theorem missing_api_key_fails_after_download_before_vision_call_witness :
    (∀ e ∈ (runMain ⟨Option.none, Option.none, Option.none⟩
      ⟨⟨2026, 1, 15⟩,
        PageResult.images ["https://files.ecatholic.com/pictures/2026/1/menu.jpg"],
        some ⟨200, [7], ""⟩, Option.none, "", fun _ => false⟩).2, e ≠ Ev.geminiCall) ∧
    (Ev.download ∈ (runMain ⟨Option.none, Option.none, Option.none⟩
      ⟨⟨2026, 1, 15⟩,
        PageResult.images ["https://files.ecatholic.com/pictures/2026/1/menu.jpg"],
        some ⟨200, [7], ""⟩, Option.none, "", fun _ => false⟩).2 →
      (runMain ⟨Option.none, Option.none, Option.none⟩
      ⟨⟨2026, 1, 15⟩,
        PageResult.images ["https://files.ecatholic.com/pictures/2026/1/menu.jpg"],
        some ⟨200, [7], ""⟩, Option.none, "", fun _ => false⟩).1 = 1) :=
  missing_api_key_fails_after_download_before_vision_call _ _ rfl

/-- C9: if a MenuRecord already exists for the resolved month_key and
the month is current, the run exits 0 with at most the page load in its
trace (no download, no extraction, no menu write); and, in general, a
`menuWrite` for a key can only appear in a run that observed no existing
record for that key — a persisted record is never overwritten. -/
theorem existing_record_short_circuits_and_never_overwritten :
    (∀ (env : Env) (w : World) (evs : List Ev) (meta : MenuMeta),
      resolveMeta env w = (evs, Except.ok meta) →
      meta.month_key = currentMonthKey w.now →
      w.menuExists meta.month_key = true →
      runMain env w = (0, evs) ∧ ∀ e ∈ evs, e = Ev.pageLoad) ∧
    (∀ (env : Env) (w : World) (k : String),
      Ev.menuWrite k ∈ (runMain env w).2 → w.menuExists k = false) := by
  constructor
  · intro env w evs meta h hcur hex
    refine ⟨runMain_up_to_date env w evs meta h hcur hex, ?_⟩
    have hev := resolve_events env w
    rw [h] at hev
    exact hev
  · exact menuWrite_mem_trace

/-- C9 witness: a concrete up-to-date run (record already persisted)
exits 0 after only the page load. -/
theorem existing_record_short_circuits_and_never_overwritten_witness :
    (runMain ⟨some "k", Option.none, Option.none⟩
      ⟨⟨2026, 1, 15⟩,
        PageResult.images ["https://files.ecatholic.com/pictures/2026/1/menu.jpg"],
        some ⟨200, [7], ""⟩, Option.none, "", fun _ => true⟩
      = (0, [Ev.pageLoad]) ∧ ∀ e ∈ [Ev.pageLoad], e = Ev.pageLoad) ∧
    ((fun (_ : String) => true) "2026-01" = false → False) :=
  ⟨existing_record_short_circuits_and_never_overwritten.1
      ⟨some "k", Option.none, Option.none⟩
      ⟨⟨2026, 1, 15⟩,
        PageResult.images ["https://files.ecatholic.com/pictures/2026/1/menu.jpg"],
        some ⟨200, [7], ""⟩, Option.none, "", fun _ => true⟩
      [Ev.pageLoad] ⟨"January", 2026, 1,
        "https://files.ecatholic.com/pictures/2026/1/menu.jpg", "2026-01"⟩
      rfl rfl rfl,
    fun h => by simp at h⟩

/-- C3 counterexample: the validator maps the number `0` and the boolean
`False` to null even though their string forms `"0"`/`"False"` are
non-empty — the coercion tests the truthiness of the value, not the
emptiness of its string form, so the claim is false at these inputs. -/
theorem falsy_nonstring_values_coerce_to_none :
    validate_menu_map [("2026-01-12", PyVal.int 0)] "2026-01" =
      Except.ok [("2026-01-12", Option.none)] ∧
    pyStr (PyVal.int 0) = "0" ∧ ("0" : String) ≠ "" ∧
    validate_menu_map [("2026-01-12", PyVal.bool false)] "2026-01" =
      Except.ok [("2026-01-12", Option.none)] ∧
    pyStr (PyVal.bool false) = "False" := by
  exact ⟨rfl, rfl, by decide, rfl, rfl⟩

/-- C3 amended: in the validator's value coercion, an entry whose value
is neither null nor a string maps to null exactly when the value itself
is falsy by Python truthiness (so `0` and `False` become null despite
non-empty string forms); a truthy value is converted to its string
form. -/
theorem value_coercion_follows_truthiness :
    ∀ v : PyVal, v ≠ PyVal.none → (∀ s, v ≠ PyVal.str s) →
      (coerce_value v = Option.none ↔ truthy v = false) ∧
      (truthy v = true → coerce_value v = some (pyStr v)) := by
  intro v h1 h2
  cases htv : truthy v
  · simp [coerce_value_other v h1 h2, htv]
  · simp [coerce_value_other v h1 h2, htv]

/-- C3 amended witness: instantiated at the value `0`. -/
theorem value_coercion_follows_truthiness_witness :
    (coerce_value (PyVal.int 0) = Option.none ↔ truthy (PyVal.int 0) = false) ∧
    (truthy (PyVal.int 0) = true → coerce_value (PyVal.int 0) = some (pyStr (PyVal.int 0))) :=
  value_coercion_follows_truthiness (PyVal.int 0) (by simp) (by simp)

/-- C4 counterexample: a response whose fenced code block holds invalid
JSON makes the parser raise an uncaught `JSONDecodeError`
(`ParseOutcome.jsonError`), even though a `{...}` span with valid JSON
follows — the third strategy is *not* tried and no `ExtractionError`
with a response prefix is raised, contradicting the claim. -/
theorem invalid_fenced_block_raises_json_error :
    parse_gemini_response
        "x\n\x60\x60\x60json\nnot json\n\x60\x60\x60 \x7b\"a\": 1\x7d" =
      ParseOutcome.jsonError ∧
    fencedSearch (pyStrip "x\n\x60\x60\x60json\nnot json\n\x60\x60\x60 \x7b\"a\": 1\x7d") =
      some "not json" ∧
    jsonLoads "not json" = Option.none ∧
    braceSearch (pyStrip "x\n\x60\x60\x60json\nnot json\n\x60\x60\x60 \x7b\"a\": 1\x7d") =
      some "\x7b\"a\": 1\x7d" ∧
    jsonLoads "\x7b\"a\": 1\x7d" = some (Json.obj [("a", Json.num "1")]) := by
  exact ⟨rfl, rfl, rfl, rfl, rfl⟩

/-- C4 amended: the three strategies are tried in order with
short-circuit on the first success, but only the *first* strategy's
parse failure falls through: when the fenced block (or, failing that,
the brace span) is found, its `json.loads` result is final — an invalid
body propagates a `JSONDecodeError` instead of reaching the next
strategy — and `ExtractionError` (with the truncated response prefix)
is raised exactly when the direct parse fails and neither a fenced
block nor a `{...}` span exists. -/
theorem response_parsing_strategy_characterisation :
    ∀ t : String,
      (∀ v, jsonLoads (pyStrip t) = some v →
        parse_gemini_response t = ParseOutcome.ok v) ∧
      (jsonLoads (pyStrip t) = Option.none →
        ∀ inner, fencedSearch (pyStrip t) = some inner →
          parse_gemini_response t =
            (match jsonLoads inner with
             | some v => ParseOutcome.ok v
             | Option.none => ParseOutcome.jsonError)) ∧
      (jsonLoads (pyStrip t) = Option.none →
        fencedSearch (pyStrip t) = Option.none →
        ∀ span, braceSearch (pyStrip t) = some span →
          parse_gemini_response t =
            (match jsonLoads span with
             | some v => ParseOutcome.ok v
             | Option.none => ParseOutcome.jsonError)) ∧
      (∀ msg, parse_gemini_response t = ParseOutcome.extractionError msg ↔
        (jsonLoads (pyStrip t) = Option.none ∧ fencedSearch (pyStrip t) = Option.none ∧
          braceSearch (pyStrip t) = Option.none ∧
          msg = "Could not parse Gemini response as JSON: " ++ pyTake (pyStrip t) 500)) := by
  intro t
  refine ⟨?_, ?_, ?_, ?_⟩
  · intro v hv
    unfold parse_gemini_response
    rw [hv]
  · intro hd inner hf
    unfold parse_gemini_response
    rw [hd, hf]
  · intro hd hf span hb
    unfold parse_gemini_response
    rw [hd, hf, hb]
  · intro msg
    unfold parse_gemini_response
    cases hd : jsonLoads (pyStrip t) with
    | some v => simp [hd]
    | none =>
      cases hf : fencedSearch (pyStrip t) with
      | some inner => cases hji : jsonLoads inner <;> simp [hji]
      | none =>
        cases hb : braceSearch (pyStrip t) with
        | some span => cases hjs : jsonLoads span <;> simp [hjs]
        | none =>
          constructor
          · intro h
            cases h
            exact ⟨rfl, rfl, rfl, rfl⟩
          · rintro ⟨-, -, -, rfl⟩
            rfl

/-- C4 amended witness: a well-formed fenced block is parsed by the
second strategy. -/
theorem response_parsing_strategy_characterisation_witness :
    parse_gemini_response "\x60\x60\x60json\n\x7b\"a\": 1\x7d\n\x60\x60\x60" =
      (match jsonLoads "\x7b\"a\": 1\x7d" with
       | some v => ParseOutcome.ok v
       | Option.none => ParseOutcome.jsonError) :=
  (response_parsing_strategy_characterisation
    "\x60\x60\x60json\n\x7b\"a\": 1\x7d\n\x60\x60\x60").2.1 rfl "\x7b\"a\": 1\x7d" rfl

/-- C5 counterexample: with two date-stamped non-`.jpg` candidates that
both pass every filter, the locator keeps the *first* (a later non-jpg
candidate never overwrites a kept one), so "the last one in input order
wins" is false: the result carries month 1 from the first candidate
although the last qualifying candidate is date-stamped month 2. -/
theorem first_dated_nonjpg_candidate_wins :
    extract_menu_meta_from_images
      ["https://files.ecatholic.com/pictures/2026/1/a.png",
       "https://files.ecatholic.com/pictures/2026/2/b.png"] ⟨2026, 1, 15⟩ =
      Except.ok ⟨"January", 2026, 1,
        "https://files.ecatholic.com/pictures/2026/1/a.png", "2026-01"⟩ ∧
    candDate 2026 "https://files.ecatholic.com/pictures/2026/2/b.png" =
      some (2026, 2) := by
  exact ⟨rfl, rfl⟩

/-- C6 counterexample: a 201 response with a non-empty body is *not*
accepted by the primary strategy (the code tests `status_code == 200`,
not 2xx): the fallback transport's bytes are returned instead, and with
no fallback available the download fails outright. -/
theorem status_201_not_accepted_by_primary :
    download_image "u" (some ⟨201, [7], ""⟩) (some (0, [9])) =
      Except.ok ([9], ".jpg", true) ∧
    (200 : Int) ≤ 201 ∧ (201 : Int) < 300 ∧ ([7] : List Nat) ≠ [] ∧
    download_image "u" (some ⟨201, [7], ""⟩) Option.none =
      Except.error "Could not download image from u" := by
  exact ⟨rfl, by decide, by decide, by decide, rfl⟩

/-- C6 amended: the primary strategy succeeds — yielding the response
bytes without invoking the fallback — exactly when the HTTP GET
returned status code exactly 200 with a non-empty body. -/
theorem primary_success_iff_status_200_nonempty :
    ∀ (url : String) (primary : Option HttpResponse) (curl : Option (Int × List Nat))
      (b : List Nat) (e : String),
      download_image url primary curl = Except.ok (b, e, false) ↔
        ∃ r, primary = some r ∧ r.status_code = 200 ∧ r.content = b ∧ b ≠ [] ∧
          e = extFor url r.content_type := by
  intro url primary curl b e
  constructor
  · intro h
    cases primary with
    | none =>
      cases curl with
      | none => simp [download_image] at h
      | some p =>
        rcases p with ⟨rc, out⟩
        by_cases hcond : rc = 0 && !out.isEmpty
        · simp [download_image, hcond] at h
        · simp [download_image, hcond] at h
    | some r =>
      by_cases hst : r.status_code = 200
      · by_cases hemp : r.content.isEmpty
        · cases curl with
          | none => simp [download_image, hst, hemp] at h
          | some p =>
            rcases p with ⟨rc, out⟩
            by_cases hcond : rc = 0 && !out.isEmpty
            · simp [download_image, hst, hemp, hcond] at h
            · simp [download_image, hst, hemp, hcond] at h
        · simp [download_image, hst, hemp] at h
          refine ⟨r, rfl, hst, h.1, ?_, h.2.symm⟩
          intro hb
          have hcn : r.content = [] := h.1.trans hb
          rw [hcn] at hemp
          simp at hemp
      · cases curl with
        | none => simp [download_image, hst] at h
        | some p =>
          rcases p with ⟨rc, out⟩
          by_cases hcond : rc = 0 && !out.isEmpty
          · simp [download_image, hst, hcond] at h
          · simp [download_image, hst, hcond] at h
  · rintro ⟨r, hpr, hst, hcon, hne, hext⟩
    subst hpr
    subst hext
    rcases hcl : r.content with _ | ⟨c, cs⟩
    · exact absurd (hcon.symm.trans hcl) hne
    · subst hcon
      simp [download_image, hst, hcl]

/-- C10: the Source Locator is not total.  A qualifying candidate with
month path segment `13` crashes on the `MONTH_NAMES[13]` lookup (an
unhandled `KeyError`, not the documented not-found failure), while a
month segment of `0` is falsy at line 90 and silently falls back to
`now`'s month/year while keeping that URL. -/
theorem locator_month_13_keyerror_and_month_0_fallback :
    extract_menu_meta_from_images
      ["https://files.ecatholic.com/pictures/2026/13/menu.jpg"] ⟨2026, 5, 10⟩ =
      Except.error "KeyError: 13" ∧
    extract_menu_meta_from_images
      ["https://files.ecatholic.com/pictures/2026/0/menu.jpg"] ⟨2026, 5, 10⟩ =
      Except.ok ⟨"May", 2026, 5,
        "https://files.ecatholic.com/pictures/2026/0/menu.jpg", "2026-05"⟩ := by
  exact ⟨rfl, rfl⟩

theorem monthName?_of_range (m : Nat) (h1 : 1 ≤ m) (h2 : m ≤ 12) :
    monthName? (m : Int) = some ((monthName? (m : Int)).getD "") := by
  interval_cases m <;> rfl

theorem filterMap_id_of_mem {α : Type} (l : List α) (h : α → Option α)
    (hl : ∀ x ∈ l, h x = some x) : l.filterMap h = l := by
  induction l with
  | nil => rfl
  | cons a t ih =>
    rw [List.filterMap_cons, hl a (List.mem_cons_self a t)]
    rw [ih (fun x hx => hl x (List.mem_cons_of_mem a hx))]

/-- C5 amended: the locator's actual tie-break.  Among the date-stamped
candidates that pass the domain and logo/seal/icon filters with
`year >= now.year - 1`, the *last* one whose URL contains `".jpg"`
(case-insensitively, anywhere — not necessarily as the extension) wins;
if none contains `".jpg"`, the *first* qualifying candidate wins.  The
winner's `(year, month)` becomes the detected month/year (provided it is
usable: nonzero year and month in 1..12). -/
theorem locator_tie_break_characterisation :
    ∀ (urls : List String) (now : PyDateTime) (w : String) (y m : Nat),
      candDate now.year w = some (y, m) → 1 ≤ y → 1 ≤ m → m ≤ 12 →
      (lastSat (validJpg now.year) urls = some w →
        extract_menu_meta_from_images urls now =
          Except.ok ⟨(monthName? (m : Int)).getD "", (y : Int), (m : Int),
            urljoin MENU_URL w, monthKeyStr (y : Int) (m : Int)⟩) ∧
      (lastSat (validJpg now.year) urls = Option.none →
        urls.find? (validCand now.year) = some w →
        extract_menu_meta_from_images urls now =
          Except.ok ⟨(monthName? (m : Int)).getD "", (y : Int), (m : Int),
            urljoin MENU_URL w, monthKeyStr (y : Int) (m : Int)⟩) := by
  intro urls now w y m hcd h1 hm1 hm2
  have hy0 : y ≠ 0 := by omega
  have hm0 : m ≠ 0 := by omega
  obtain ⟨nm, hnm⟩ : ∃ nm, monthName? (m : Int) = some nm :=
    ⟨_, monthName?_of_range m hm1 hm2⟩
  constructor
  · intro hlast
    simp only [extract_menu_meta_from_images]
    rw [foldl_locStep_unset, hlast]
    simp only [Option.map_some', Option.getD_some, stateOf, hcd]
    simp [hy0, hm0, hnm]
  · intro hlast hfind
    simp only [extract_menu_meta_from_images]
    rw [foldl_locStep_unset, hlast]
    simp only [Option.map_none', Option.getD_none, hfind, Option.map_some',
      Option.getD_some, stateOf, hcd]
    simp [hy0, hm0, hnm]

/-- C5 amended witness: two `.jpg` candidates — the last one wins. -/
theorem locator_tie_break_characterisation_witness :
    extract_menu_meta_from_images
      ["https://files.ecatholic.com/pictures/2026/1/a.jpg",
       "https://files.ecatholic.com/pictures/2026/2/b.jpg"] ⟨2026, 1, 15⟩ =
      Except.ok ⟨(monthName? (2 : Int)).getD "", (2026 : Int), (2 : Int),
        urljoin MENU_URL "https://files.ecatholic.com/pictures/2026/2/b.jpg",
        monthKeyStr (2026 : Int) (2 : Int)⟩ :=
  (locator_tie_break_characterisation
    ["https://files.ecatholic.com/pictures/2026/1/a.jpg",
     "https://files.ecatholic.com/pictures/2026/2/b.jpg"] ⟨2026, 1, 15⟩
    "https://files.ecatholic.com/pictures/2026/2/b.jpg" 2026 2
    rfl (by decide) (by decide) (by decide)).1 rfl

/-- C7: with a well-formed target month_key, the validator's surviving
keys are exactly the input keys that parse as `%Y-%m-%d` with the
target year/month (malformed or off-month keys are dropped, not
errors), and it fails with the empty-result `ValueError` exactly when
no input key survives. -/
theorem validator_keys_exactly_target_month_and_empty_fails :
    ∀ (mm : List (String × PyVal)) (mk : String) (y m : Int),
      parse_month_key mk = some (y, m) →
      (mm.map Prod.fst).Nodup →
      ((validate_menu_map mm mk =
          Except.error "No valid menu entries after validation") ↔
        ∀ p ∈ mm, keyOk p.1 y m = false) ∧
      (∀ out, validate_menu_map mm mk = Except.ok out →
        ∀ k, (∃ v, (k, v) ∈ out) ↔ ((∃ v, (k, v) ∈ mm) ∧ keyOk k y m = true)) := by
  intro mm mk y m hpm hnd
  have hval : validate_menu_map mm mk =
      if (sortPairs (mm.filterMap (fun p =>
          if keyOk p.1 y m then some (p.1, coerce_value p.2) else Option.none))).isEmpty
      then Except.error "No valid menu entries after validation"
      else Except.ok (sortPairs (mm.filterMap (fun p =>
          if keyOk p.1 y m then some (p.1, coerce_value p.2) else Option.none))) := by
    unfold validate_menu_map
    rw [hpm]
  constructor
  · rw [hval]
    by_cases he : (sortPairs (mm.filterMap (fun p =>
        if keyOk p.1 y m then some (p.1, coerce_value p.2) else Option.none))).isEmpty
    · rw [if_pos he]
      have hnil : mm.filterMap (fun p =>
          if keyOk p.1 y m then some (p.1, coerce_value p.2) else Option.none) = [] := by
        apply (sortPairs_eq_nil_iff _).mp
        exact List.isEmpty_iff.mp he
      constructor
      · intro _ p hp
        have hfp := (List.filterMap_eq_nil_iff.mp hnil) p hp
        by_contra hko
        rw [Bool.not_eq_false] at hko
        rw [if_pos hko] at hfp
        simp at hfp
      · intro _; rfl
    · rw [if_neg he]
      constructor
      · intro h
        exact absurd h (by simp)
      · intro hall
        apply absurd _ he
        have hnil : mm.filterMap (fun p =>
            if keyOk p.1 y m then some (p.1, coerce_value p.2) else Option.none) = [] :=
          List.filterMap_eq_nil_iff.mpr (fun p hp => by rw [if_neg (by simp [hall p hp])])
        rw [hnil]
        rfl
  · intro out hout k
    rw [hval] at hout
    split at hout
    · exact absurd hout (by simp)
    · rename_i he
      cases hout
      constructor
      · rintro ⟨v, hv⟩
        have hv' := (mem_sortPairs _ _).mp hv
        rcases List.mem_filterMap.mp hv' with ⟨p, hpmem, hfp⟩
        by_cases hko : keyOk p.1 y m
        · rw [if_pos hko] at hfp
          rw [Option.some_inj] at hfp
          have hk1 : p.1 = k := congrArg Prod.fst hfp
          refine ⟨⟨p.2, ?_⟩, hk1 ▸ hko⟩
          rw [← hk1]
          exact hpmem
        · rw [if_neg hko] at hfp
          simp at hfp
      · rintro ⟨⟨v, hvmem⟩, hko⟩
        refine ⟨coerce_value v, ?_⟩
        apply (mem_sortPairs _ _).mpr
        apply List.mem_filterMap.mpr
        exact ⟨(k, v), hvmem, by rw [if_pos hko]⟩

/-- C7 witness: the repository's own validator test scenario. -/
theorem validator_keys_exactly_target_month_and_empty_fails_witness :
    ((validate_menu_map
        [("2026-01-12", PyVal.str "Pizza"), ("2026-02-01", PyVal.str "Wrong month"),
         ("2026-01-XX", PyVal.str "Bad date")] "2026-01" =
        Except.error "No valid menu entries after validation") ↔
      ∀ p ∈ [("2026-01-12", PyVal.str "Pizza"), ("2026-02-01", PyVal.str "Wrong month"),
         ("2026-01-XX", PyVal.str "Bad date")], keyOk p.1 2026 1 = false) ∧
    (∀ out, validate_menu_map
        [("2026-01-12", PyVal.str "Pizza"), ("2026-02-01", PyVal.str "Wrong month"),
         ("2026-01-XX", PyVal.str "Bad date")] "2026-01" = Except.ok out →
      ∀ k, (∃ v, (k, v) ∈ out) ↔
        ((∃ v, (k, v) ∈ [("2026-01-12", PyVal.str "Pizza"),
           ("2026-02-01", PyVal.str "Wrong month"),
           ("2026-01-XX", PyVal.str "Bad date")]) ∧ keyOk k 2026 1 = true)) :=
  validator_keys_exactly_target_month_and_empty_fails
    [("2026-01-12", PyVal.str "Pizza"), ("2026-02-01", PyVal.str "Wrong month"),
     ("2026-01-XX", PyVal.str "Bad date")] "2026-01" 2026 1 rfl (by decide)

/-- C8: on success the validator's output is sorted ascending by key,
and the validator is idempotent: feeding the output back (as raw
values) with the same month_key returns it unchanged. -/
theorem validator_sorted_and_idempotent :
    ∀ (mm : List (String × PyVal)) (mk : String) (out : List (String × Option String)),
      (mm.map Prod.fst).Nodup →
      (∀ p ∈ mm, pyValWF p.2 = true) →
      validate_menu_map mm mk = Except.ok out →
      List.Pairwise (fun a b => kle a b = true) out ∧
      validate_menu_map (out.map (fun p => (p.1, optToPy p.2))) mk = Except.ok out := by
  intro mm mk out hnd hwf hok
  cases hpm : parse_month_key mk with
  | none =>
    unfold validate_menu_map at hok
    rw [hpm] at hok
    exact absurd hok (by simp)
  | some ym =>
    rcases ym with ⟨y, m⟩
    have hval : validate_menu_map mm mk =
        if (sortPairs (mm.filterMap (fun p =>
            if keyOk p.1 y m then some (p.1, coerce_value p.2) else Option.none))).isEmpty
        then Except.error "No valid menu entries after validation"
        else Except.ok (sortPairs (mm.filterMap (fun p =>
            if keyOk p.1 y m then some (p.1, coerce_value p.2) else Option.none))) := by
      unfold validate_menu_map
      rw [hpm]
    rw [hval] at hok
    split at hok
    · exact absurd hok (by simp)
    · rename_i hne
      cases hok
      have hpw := pairwise_sortPairs (mm.filterMap (fun p =>
        if keyOk p.1 y m then some (p.1, coerce_value p.2) else Option.none))
      refine ⟨hpw, ?_⟩
      have hmem : ∀ q ∈ sortPairs (mm.filterMap (fun p =>
          if keyOk p.1 y m then some (p.1, coerce_value p.2) else Option.none)),
          keyOk q.1 y m = true ∧ ∃ v0, pyValWF v0 = true ∧ q.2 = coerce_value v0 := by
        intro q hq
        have hq' := (mem_sortPairs _ _).mp hq
        rcases List.mem_filterMap.mp hq' with ⟨p, hpmem, hfp⟩
        by_cases hko : keyOk p.1 y m
        · rw [if_pos hko] at hfp
          rw [Option.some_inj] at hfp
          rw [← hfp]
          exact ⟨hko, p.2, hwf p hpmem, rfl⟩
        · rw [if_neg hko] at hfp
          simp at hfp
      have hcoe : ∀ q ∈ sortPairs (mm.filterMap (fun p =>
          if keyOk p.1 y m then some (p.1, coerce_value p.2) else Option.none)),
          ((fun p : String × PyVal =>
            if keyOk p.1 y m then some (p.1, coerce_value p.2) else Option.none) ∘
            (fun p : String × Option String => (p.1, optToPy p.2))) q = some q := by
        intro q hq
        rcases hmem q hq with ⟨hko, v0, hv0wf, hv0⟩
        show (if keyOk q.1 y m then some (q.1, coerce_value (optToPy q.2))
          else Option.none) = some q
        rw [if_pos hko]
        rw [Option.some_inj]
        cases hqv : q.2 with
        | none =>
          show (q.1, coerce_value PyVal.none) = q
          show (q.1, (Option.none : Option String)) = q
          rw [← hqv]
        | some s =>
          have hsafe := coerce_strip_safe v0 hv0wf s (by rw [← hv0, hqv])
          show (q.1, coerce_value (PyVal.str s)) = q
          rw [coerce_value_str, hsafe.1, if_neg hsafe.2, ← hqv]
      have hfm : ((sortPairs (mm.filterMap (fun p =>
          if keyOk p.1 y m then some (p.1, coerce_value p.2) else Option.none))).map
            (fun p => (p.1, optToPy p.2))).filterMap
          (fun p : String × PyVal =>
            if keyOk p.1 y m then some (p.1, coerce_value p.2) else Option.none) =
          sortPairs (mm.filterMap (fun p =>
            if keyOk p.1 y m then some (p.1, coerce_value p.2) else Option.none)) := by
        rw [List.filterMap_map]
        exact filterMap_id_of_mem _ _ hcoe
      have hfix := sortPairs_of_pairwise _ hpw
      have hval2 : validate_menu_map
          ((sortPairs (mm.filterMap (fun p =>
            if keyOk p.1 y m then some (p.1, coerce_value p.2) else Option.none))).map
              (fun p => (p.1, optToPy p.2))) mk =
          if (sortPairs (((sortPairs (mm.filterMap (fun p =>
              if keyOk p.1 y m then some (p.1, coerce_value p.2) else Option.none))).map
                (fun p => (p.1, optToPy p.2))).filterMap (fun p =>
              if keyOk p.1 y m then some (p.1, coerce_value p.2) else Option.none))).isEmpty
          then Except.error "No valid menu entries after validation"
          else Except.ok (sortPairs (((sortPairs (mm.filterMap (fun p =>
              if keyOk p.1 y m then some (p.1, coerce_value p.2) else Option.none))).map
                (fun p => (p.1, optToPy p.2))).filterMap (fun p =>
              if keyOk p.1 y m then some (p.1, coerce_value p.2) else Option.none))) := by
        unfold validate_menu_map
        rw [hpm]
      rw [hval2, hfm, hfix, if_neg hne]

/-- C8 witness: a concrete successful validation — output sorted and a
fixed point of re-validation. -/
theorem validator_sorted_and_idempotent_witness :
    List.Pairwise (fun a b => kle a b = true)
      [("2026-01-05", Option.none), ("2026-01-12", some "Pizza")] ∧
    validate_menu_map
      ([("2026-01-05", Option.none), ("2026-01-12", some "Pizza")].map
        (fun p => (p.1, optToPy p.2))) "2026-01" =
      Except.ok [("2026-01-05", Option.none), ("2026-01-12", some "Pizza")] :=
  validator_sorted_and_idempotent
    [("2026-01-12", PyVal.str "Pizza"), ("2026-01-05", PyVal.none)] "2026-01"
    [("2026-01-05", Option.none), ("2026-01-12", some "Pizza")]
    (by decide) (by decide) rfl

end SgmLunch
